import Mathlib

/-!
# Verification of the image-lottery selection engine (src/App.tsx)

A shallow embedding of the core logic of the single-page lottery app:
coordinate transforms, the pointer-gesture selection state machine, the
grid/cell model, the randomized draw (Fisher-Yates), and the history log.
JavaScript numbers are modelled as exact rationals (`ℚ`); JS arrays as
`List`; the `Math.random`-driven index choices of the shuffle are
abstracted as an oracle `rand : Nat → Nat` giving the index drawn at each
loop counter.
-/

namespace LotteryApp

/-- `Selection` record from src/App.tsx (a rectangle in the image's local
pixel space). -/
structure Selection where
  x : ℚ
  y : ℚ
  w : ℚ
  h : ℚ
deriving DecidableEq, Repr

/-- `LotteryImage` record from src/App.tsx (the per-image selection model;
the `src` object-URL field is dropped as it is outside the core). -/
structure LotteryImage where
  id : String
  naturalWidth : ℚ
  naturalHeight : ℚ
  selection : Option Selection
  gridRows : Nat
  gridCols : Nat
  excludedCells : List Nat
  winners : List Nat
deriving DecidableEq, Repr

/-- The view transform state of the canvas: `scale`, `pan` from App.tsx. -/
structure View where
  scale : ℚ
  panX : ℚ
  panY : ℚ
deriving DecidableEq, Repr

/-- `getWorldPos` from src/App.tsx: screen point (relative to the canvas
top-left) to world point: `((sx - pan.x) / scale, (sy - pan.y) / scale)`. -/
def getWorldPos (v : View) (sx sy : ℚ) : ℚ × ℚ :=
  ((sx - v.panX) / v.scale, (sy - v.panY) / v.scale)

/-- The inverse world-to-screen transform used by the renderer
(`ctx.translate(pan.x, pan.y); ctx.scale(scale, scale)`) and by
`zoomToImage` (`pan.x = centerX - worldX * finalScale`):
`sx = wx * scale + pan.x`. -/
def worldToScreen (v : View) (wx wy : ℚ) : ℚ × ℚ :=
  (wx * v.scale + v.panX, wy * v.scale + v.panY)

/-- The data captured by `pinchStartInfo` in src/App.tsx on the second
pointer-down: initial finger distance, initial scale and pan, and the world
point under the fingers' midpoint. -/
structure PinchInfo where
  dist : ℚ
  scale : ℚ
  panX : ℚ
  panY : ℚ
  worldX : ℚ
  worldY : ℚ
deriving DecidableEq, Repr

/-- The two-pointer branch of `handlePointerDown` in src/App.tsx: capture
the distance, the current scale/pan, and the world point under the screen
midpoint `(sx, sy)`.  The finger distance is an input (the source computes
it with `Math.hypot`, which lives outside exact rational arithmetic). -/
def pinchStart (v : View) (dist sx sy : ℚ) : PinchInfo :=
  { dist := dist
    scale := v.scale
    panX := v.panX
    panY := v.panY
    worldX := (sx - v.panX) / v.scale
    worldY := (sy - v.panY) / v.scale }

/-- The two-pointer branch of `handlePointerMove` in src/App.tsx:
`newScale = clamp(initialScale * (dist / initialDist), 0.1, 5)` and
`newPan = screenMidpoint - worldPoint * newScale`. -/
def pinchMove (info : PinchInfo) (dist sx sy : ℚ) : View :=
  let scaleRatio := dist / info.dist
  let newScale := min (max (info.scale * scaleRatio) (1/10)) 5
  { scale := newScale
    panX := sx - info.worldX * newScale
    panY := sy - info.worldY * newScale }

/-- Swap the entries at positions `i` and `j` of a list (the effect of
`[arr[i], arr[j]] = [arr[j], arr[i]]` in `shuffleArray`); out-of-range
indices leave the list unchanged. -/
def listSwap (l : List α) (i j : Nat) : List α :=
  match l[i]?, l[j]? with
  | some a, some b => (l.set i b).set j a
  | _, _ => l

/-- The loop of `shuffleArray` in src/App.tsx: counter `i` runs from
`arr.length - 1` down to `1`, swapping position `i` with the randomly
drawn position `rand i`. -/
def fyAux (rand : Nat → Nat) : Nat → List α → List α
  | 0, l => l
  | i + 1, l => fyAux rand i (listSwap l (i + 1) (rand (i + 1)))

/-- `shuffleArray` from src/App.tsx: the Fisher-Yates shuffle, with the
index `Math.floor(Math.random() * (i + 1))` drawn at loop counter `i`
abstracted as `rand i`. -/
def shuffleArray (rand : Nat → Nat) (l : List α) : List α :=
  fyAux rand (l.length - 1) l

/-- An entry of the draw pool built in `startLottery`:
`{ imageId, cellIndex, imageIndex }` (the 1-based image index is only used
for display). -/
structure PoolEntry where
  imageId : String
  cellIndex : Nat
  imageIndex : Nat
deriving DecidableEq, Repr

/-- The cell indices of one image that are not excluded: the inner loop of
the pool construction in `startLottery`
(`for i in 0..total, if !excludedCells.includes(i)`). -/
def eligibleCells (img : LotteryImage) : List Nat :=
  (List.range (img.gridRows * img.gridCols)).filter
    (fun i => !(img.excludedCells.contains i))

/-- The `images.forEach((img, idx) => ...)` pool construction of
`startLottery`, with `idx` made explicit: images without a selection are
skipped, every non-excluded cell of the others is pushed. -/
def buildPoolAux : List LotteryImage → Nat → List PoolEntry
  | [], _ => []
  | img :: rest, idx =>
    (match img.selection with
     | Option.none => []
     | some _ => (eligibleCells img).map (fun i => ⟨img.id, i, idx + 1⟩))
      ++ buildPoolAux rest (idx + 1)

/-- The full eligible pool of `startLottery`. -/
def buildPool (images : List LotteryImage) : List PoolEntry :=
  buildPoolAux images 0

/-- `totalEligibleCount` from src/App.tsx: sum over images with a selection
of `gridRows * gridCols - excludedCells.length` (computed in `Int`, as the
source works with plain JS numbers). -/
def totalEligibleCount (images : List LotteryImage) : Int :=
  images.foldl
    (fun acc img =>
      match img.selection with
      | Option.none => acc
      | some _ => acc + ((img.gridRows * img.gridCols : Int) - img.excludedCells.length))
    0

/-- The entry guard of `startLottery` in src/App.tsx: the draw is rejected
(alert + early return, before any state change) exactly when
`totalEligibleCount === 0`. -/
def startLotteryRejects (images : List LotteryImage) : Bool :=
  totalEligibleCount images == 0

/-- The completion step of `startLottery` (the `else` branch of `animate`
once the duration has elapsed): shuffle the pool, take the first
`min(winnerCount, pool.length)` entries as winners, and write each image's
winners back by filtering on its id.  Returns the global winner list and
the updated images. -/
def lotteryFinish (rand : Nat → Nat) (images : List LotteryImage) (winnerCount : Nat) :
    List PoolEntry × List LotteryImage :=
  let pool := buildPool images
  let shuffled := shuffleArray rand pool
  let winners := shuffled.take (min winnerCount pool.length)
  (winners,
    images.map fun img =>
      { img with winners :=
          (winners.filter (fun w => w.imageId == img.id)).map PoolEntry.cellIndex })

/-- Concrete test image: 2×2 grid with cell 1 excluded (3 eligible cells). -/
def exImg1 : LotteryImage :=
  { id := "a", naturalWidth := 100, naturalHeight := 100
    selection := some ⟨0, 0, 40, 40⟩, gridRows := 2, gridCols := 2
    excludedCells := [1], winners := [] }

/-- Concrete test image: 1×3 grid with nothing excluded (3 eligible cells). -/
def exImg2 : LotteryImage :=
  { id := "b", naturalWidth := 60, naturalHeight := 20
    selection := some ⟨0, 0, 30, 10⟩, gridRows := 1, gridCols := 3
    excludedCells := [], winners := [] }

/-- The two-image configuration of the spec's draw-pool test (pool size 6). -/
def exImages : List LotteryImage := [exImg1, exImg2]

/-- A concrete random oracle (always swapping an index with itself, i.e. the
identity shuffle); it satisfies the range constraint `rand i ≤ i` of
`Math.floor(Math.random() * (i + 1))`. -/
def exRand : Nat → Nat := fun i => i

/-- The `InteractionMode` union type of src/App.tsx. -/
inductive InteractionMode where
  | none
  | drawing
  | moving
  | resizing
  | panning
deriving DecidableEq, Repr

/-- The eight resize-handle names of src/App.tsx. -/
inductive ResizeHandle where
  | tl | tm | tr | mr | br | bm | bl | ml
deriving DecidableEq, Repr

/-- `handle.includes('l')` on the handle-name strings. -/
def ResizeHandle.hasL : ResizeHandle → Bool
  | .tl | .bl | .ml => true
  | _ => false

/-- `handle.includes('r')` on the handle-name strings. -/
def ResizeHandle.hasR : ResizeHandle → Bool
  | .tr | .mr | .br => true
  | _ => false

/-- `handle.includes('t')` on the handle-name strings. -/
def ResizeHandle.hasT : ResizeHandle → Bool
  | .tl | .tm | .tr => true
  | _ => false

/-- `handle.includes('b')` on the handle-name strings. -/
def ResizeHandle.hasB : ResizeHandle → Bool
  | .bl | .bm | .br => true
  | _ => false

/-- The normalization applied in `handlePointerUp` of src/App.tsx: a
negative width/height flips the origin so it becomes top-left. -/
def normalizeSelection (s : Selection) : Selection :=
  { x := if s.w < 0 then s.x + s.w else s.x
    y := if s.h < 0 then s.y + s.h else s.y
    w := |s.w|
    h := |s.h| }

/-- The selection-commit logic of `handlePointerUp` in src/App.tsx: a
`drawing` gesture whose normalized extent is below 10 in either dimension
discards the selection; any other non-`none`, non-`panning` mode commits
the normalized rectangle; `none`/`panning` leave the selection untouched. -/
def commitSelection (mode : InteractionMode) (s : Selection) : Option Selection :=
  let normSel := normalizeSelection s
  if mode = .drawing ∧ (normSel.w < 10 ∨ normSel.h < 10) then Option.none
  else if mode ≠ .none ∧ mode ≠ .panning then some normSel
  else some s

/-- The effect of `handlePointerUp` on the active image's selection. -/
def pointerUpImage (mode : InteractionMode) (img : LotteryImage) : LotteryImage :=
  match img.selection with
  | Option.none => img
  | some s =>
    match commitSelection mode s with
    | Option.none => { img with selection := Option.none }
    | some t => { img with selection := some t }

/-- The rows `NumberControl` handler in `SettingsPanel` of src/App.tsx:
set `gridRows` and reset `excludedCells` and `winners`. -/
def setGridRows (val : Nat) (img : LotteryImage) : LotteryImage :=
  { img with gridRows := val, excludedCells := [], winners := [] }

/-- The cols `NumberControl` handler in `SettingsPanel` of src/App.tsx:
set `gridCols` and reset `excludedCells` and `winners`. -/
def setGridCols (val : Nat) (img : LotteryImage) : LotteryImage :=
  { img with gridCols := val, excludedCells := [], winners := [] }

/-- The `drawing` branch of `handlePointerDown` in src/App.tsx: replace the
selection by a zero-size rectangle at the local pointer position and clear
`excludedCells` and `winners`. -/
def drawStart (img : LotteryImage) (lx ly : ℚ) : LotteryImage :=
  { img with selection := some ⟨lx, ly, 0, 0⟩, excludedCells := [], winners := [] }

/-- The `drawing` branch of `handlePointerMove` in src/App.tsx: stretch the
selection so its extent reaches the local pointer position (possibly
negative). -/
def drawingMove (img : LotteryImage) (lx ly : ℚ) : LotteryImage :=
  match img.selection with
  | Option.none => img
  | some s => { img with selection := some { s with w := lx - s.x, h := ly - s.y } }

/-- The `moving` branch of `handlePointerMove` in src/App.tsx: translate the
initial rectangle by the pointer delta (already divided by scale), clamping
the top-left with `max(0, min(·, natural - extent))`; exclusions and winners
are cleared only when `excludedCells` is non-empty. -/
def moveFrame (img : LotteryImage) (s : Selection) (dx dy : ℚ) : LotteryImage :=
  let newX := max 0 (min (s.x + dx) (img.naturalWidth - s.w))
  let newY := max 0 (min (s.y + dy) (img.naturalHeight - s.h))
  let img1 := if img.excludedCells.length > 0
    then { img with excludedCells := [], winners := [] } else img
  { img1 with selection := some { s with x := newX, y := newY } }

/-- The `resizing` branch of `handlePointerMove` in src/App.tsx: the edges
named by the handle move by the pointer delta, a negative extent flips the
origin; exclusions and winners are cleared only when `excludedCells` is
non-empty. -/
def resizeFrame (img : LotteryImage) (s : Selection) (handle : ResizeHandle)
    (dx dy : ℚ) : LotteryImage :=
  let img1 := if img.excludedCells.length > 0
    then { img with excludedCells := [], winners := [] } else img
  let x1 := if handle.hasL then s.x + dx else s.x
  let w1 := if handle.hasL then s.w - dx else s.w
  let w2 := if handle.hasR then w1 + dx else w1
  let y1 := if handle.hasT then s.y + dy else s.y
  let h1 := if handle.hasT then s.h - dy else s.h
  let h2 := if handle.hasB then h1 + dy else h1
  let x2 := if w2 < 0 then x1 + w2 else x1
  let w3 := if w2 < 0 then |w2| else w2
  let y2 := if h2 < 0 then y1 + h2 else y1
  let h3 := if h2 < 0 then |h2| else h2
  { img1 with selection := some ⟨x2, y2, w3, h3⟩ }

/-- A concrete image whose winners are non-empty while no cell is excluded
(the state after a draw with no exclusions). -/
def exImgWinners : LotteryImage :=
  { id := "a", naturalWidth := 100, naturalHeight := 100
    selection := some ⟨0, 0, 50, 50⟩, gridRows := 2, gridCols := 2
    excludedCells := [], winners := [2] }

/-- An oversized selection (wider than its 100-pixel image). -/
def exWideSel : Selection := ⟨0, 0, 150, 50⟩

/-- `handleCellClick` from src/App.tsx: locate the grid cell under the
local click point `(lx, ly)`; if `(row, col)` is in range, toggle that cell
index in `excludedCells` (remove it when present, append it otherwise).
No other field is touched. -/
def handleCellClick (img : LotteryImage) (lx ly : ℚ) : LotteryImage :=
  match img.selection with
  | Option.none => img
  | some sel =>
    let rx := lx - sel.x
    let ry := ly - sel.y
    let cellW := sel.w / img.gridCols
    let cellH := sel.h / img.gridRows
    let col : Int := ⌊rx / cellW⌋
    let row : Int := ⌊ry / cellH⌋
    if 0 ≤ col ∧ col < (img.gridCols : Int) ∧ 0 ≤ row ∧ row < (img.gridRows : Int) then
      let idx : Nat := (row * img.gridCols + col).toNat
      let newExcluded := if img.excludedCells.contains idx
        then img.excludedCells.filter (fun i => i != idx)
        else img.excludedCells ++ [idx]
      { img with excludedCells := newExcluded }
    else img

/-- A concrete image with winners `[2]` and a selection whose cell 2 sits
under the click point `(50, 50)` (1×5 grid over a 100×100 selection). -/
def exImgToggle : LotteryImage :=
  { id := "a", naturalWidth := 100, naturalHeight := 100
    selection := some ⟨0, 0, 100, 100⟩, gridRows := 1, gridCols := 5
    excludedCells := [], winners := [2] }

/-- A history log entry of src/App.tsx: the snapshot of all images plus the
action label (the wall-clock timestamp is dropped). -/
structure HistoryEntry where
  images : List LotteryImage
  action : String
deriving DecidableEq, Repr

/-- The undo/redo-relevant application state of src/App.tsx: the live
images, the linear history log and the redo (future) stack. -/
structure AppState where
  images : List LotteryImage
  history : List HistoryEntry
  future : List HistoryEntry
deriving DecidableEq, Repr

/-- `saveHistory` from src/App.tsx: append a new entry for the given images
snapshot, cap the log at 100 entries (dropping the oldest), and clear the
redo stack. -/
def saveHistory (action : String) (imgs : List LotteryImage) (s : AppState) : AppState :=
  let newHist := s.history ++ [{ images := imgs, action := action }]
  { s with
      history := if newHist.length > 100 then newHist.drop (newHist.length - 100) else newHist
      future := [] }

/-- A recorded mutation: the caller of `saveHistory` first installs the new
images via `setImages` and then records them with a label. -/
def recordAction (label : String) (imgs : List LotteryImage) (s : AppState) : AppState :=
  saveHistory label imgs { s with images := imgs }

/-- `restoreHistory` from src/App.tsx: look up the entry at `index`; if it
exists, install its snapshot as the live images, append a new log entry
(labelled as a restore) instead of truncating, and clear the redo stack. -/
def restoreHistory (index : Nat) (s : AppState) : AppState :=
  match s.history[index]? with
  | Option.none => s
  | some entry =>
    { images := entry.images
      history := s.history ++ [{ images := entry.images, action := "恢复: " ++ entry.action }]
      future := [] }

/-- The empty starting state (no images, no history, no redo stack). -/
def emptyState : AppState := { images := [], history := [], future := [] }

/-- C6: screen → world → screen is the identity whenever `scale > 0`
(exact over the rationals). -/
theorem c6_coordinate_round_trip (v : View) (sx sy : ℚ) (hs : 0 < v.scale) :
    worldToScreen v (getWorldPos v sx sy).1 (getWorldPos v sx sy).2 = (sx, sy) := by
  have hs0 : v.scale ≠ 0 := ne_of_gt hs
  simp only [getWorldPos, worldToScreen]
  rw [Prod.mk.injEq]
  constructor <;> field_simp

/-- Witness for C6 at a concrete view and screen point. -/
theorem c6_coordinate_round_trip_witness :
    worldToScreen ⟨2, 3, 4⟩ (getWorldPos ⟨2, 3, 4⟩ 5 6).1 (getWorldPos ⟨2, 3, 4⟩ 5 6).2
      = (5, 6) :=
  c6_coordinate_round_trip ⟨2, 3, 4⟩ 5 6 (by norm_num)

/-- The scale produced by a pinch move is at least the lower clamp bound. -/
theorem pinchMove_scale_pos (info : PinchInfo) (dist sx sy : ℚ) :
    0 < (pinchMove info dist sx sy).scale := by
  have h1 : (1/10 : ℚ) ≤ min (max (info.scale * (dist / info.dist)) (1/10)) 5 :=
    le_min (le_max_right _ _) (by norm_num)
  calc (0 : ℚ) < 1/10 := by norm_num
    _ ≤ _ := h1

/-- C3: at every pinch-move frame the new scale is
`initialScale * (dist/initialDist)` clamped to `[0.1, 5]`, the new pan is
`midpoint - anchorWorld * newScale`, the anchor world point captured at
pinch start is the world point under the starting midpoint, and converting
the current midpoint back to world coordinates under the new view returns
exactly that anchor point. -/
theorem c3_pinch_anchor_invariance (v : View) (dist0 sx0 sy0 dist sx sy : ℚ) :
    (pinchStart v dist0 sx0 sy0).worldX = (getWorldPos v sx0 sy0).1
    ∧ (pinchStart v dist0 sx0 sy0).worldY = (getWorldPos v sx0 sy0).2
    ∧ (pinchMove (pinchStart v dist0 sx0 sy0) dist sx sy).scale
        = min (max ((pinchStart v dist0 sx0 sy0).scale * (dist / (pinchStart v dist0 sx0 sy0).dist)) (1/10)) 5
    ∧ (pinchMove (pinchStart v dist0 sx0 sy0) dist sx sy).panX
        = sx - (pinchStart v dist0 sx0 sy0).worldX * (pinchMove (pinchStart v dist0 sx0 sy0) dist sx sy).scale
    ∧ (pinchMove (pinchStart v dist0 sx0 sy0) dist sx sy).panY
        = sy - (pinchStart v dist0 sx0 sy0).worldY * (pinchMove (pinchStart v dist0 sx0 sy0) dist sx sy).scale
    ∧ getWorldPos (pinchMove (pinchStart v dist0 sx0 sy0) dist sx sy) sx sy
        = ((pinchStart v dist0 sx0 sy0).worldX, (pinchStart v dist0 sx0 sy0).worldY) := by
  refine ⟨rfl, rfl, rfl, rfl, rfl, ?_⟩
  have hpos := pinchMove_scale_pos (pinchStart v dist0 sx0 sy0) dist sx sy
  have hne : (pinchMove (pinchStart v dist0 sx0 sy0) dist sx sy).scale ≠ 0 := ne_of_gt hpos
  simp only [pinchMove, getWorldPos] at hne ⊢
  rw [Prod.mk.injEq]
  constructor <;> field_simp

/-- Replacing the entry at position `i` by `x` and re-consing the old entry
in front is a permutation of consing `x` in front. -/
theorem get_cons_set_perm :
    ∀ (l : List α) (i : Nat) (h : i < l.length) (x : α),
      List.Perm (l.get ⟨i, h⟩ :: l.set i x) (x :: l) := by
  intro l
  induction l with
  | nil => intro i h x; simp at h
  | cons a t ih =>
    intro i h x
    match i with
    | 0 => exact List.Perm.swap x a t
    | k + 1 =>
      have hk : k < t.length := by simpa using h
      show List.Perm (t.get ⟨k, hk⟩ :: a :: t.set k x) (x :: a :: t)
      have step1 : List.Perm (t.get ⟨k, hk⟩ :: a :: t.set k x)
          (a :: t.get ⟨k, hk⟩ :: t.set k x) := List.Perm.swap a _ _
      have step2 : List.Perm (a :: t.get ⟨k, hk⟩ :: t.set k x) (a :: x :: t) :=
        (ih k hk x).cons a
      have step3 : List.Perm (a :: x :: t) (x :: a :: t) := List.Perm.swap x a t
      exact (step1.trans step2).trans step3

/-- A position swap is a permutation of the original list. -/
theorem listSwap_perm : ∀ (l : List α) (i j : Nat), List.Perm (listSwap l i j) l := by
  intro l
  induction l with
  | nil => intro i j; simp [listSwap]
  | cons a t ih =>
    intro i j
    match i, j with
    | 0, 0 =>
      simp only [listSwap, List.getElem?_cons_zero, List.set_cons_zero]
      exact List.Perm.refl _
    | 0, k + 1 =>
      cases hk : t[k]? with
      | none =>
        simp only [listSwap, List.getElem?_cons_zero, List.getElem?_cons_succ, hk]
        exact List.Perm.refl _
      | some b =>
        have hkl : k < t.length := (List.getElem?_eq_some_iff.mp hk).1
        have hb : t.get ⟨k, hkl⟩ = b := by
          have h2 := (List.getElem?_eq_some_iff.mp hk).2
          simpa [List.get_eq_getElem] using h2
        simp only [listSwap, List.getElem?_cons_zero, List.getElem?_cons_succ, hk,
          List.set_cons_zero, List.set_cons_succ]
        rw [← hb]
        exact get_cons_set_perm t k hkl a
    | m + 1, 0 =>
      cases hm : t[m]? with
      | none =>
        simp only [listSwap, List.getElem?_cons_zero, List.getElem?_cons_succ, hm]
        exact List.Perm.refl _
      | some b =>
        have hml : m < t.length := (List.getElem?_eq_some_iff.mp hm).1
        have hb : t.get ⟨m, hml⟩ = b := by
          have h2 := (List.getElem?_eq_some_iff.mp hm).2
          simpa [List.get_eq_getElem] using h2
        simp only [listSwap, List.getElem?_cons_succ, hm, List.getElem?_cons_zero,
          List.set_cons_succ, List.set_cons_zero]
        rw [← hb]
        exact get_cons_set_perm t m hml a
    | m + 1, k + 1 =>
      cases hm : t[m]? with
      | none =>
        simp only [listSwap, List.getElem?_cons_succ, hm]
        exact List.Perm.refl _
      | some b =>
        cases hk : t[k]? with
        | none =>
          simp only [listSwap, List.getElem?_cons_succ, hm, hk]
          exact List.Perm.refl _
        | some c =>
          simp only [listSwap, List.getElem?_cons_succ, hm, hk, List.set_cons_succ]
          have hih := ih m k
          simp only [listSwap, hm, hk] at hih
          exact hih.cons a

/-- Each pass of the Fisher-Yates loop permutes the list. -/
theorem fyAux_perm (rand : Nat → Nat) :
    ∀ (n : Nat) (l : List α), List.Perm (fyAux rand n l) l
  | 0, l => List.Perm.refl l
  | n + 1, l => (fyAux_perm rand n _).trans (listSwap_perm l (n + 1) (rand (n + 1)))

/-- `shuffleArray` returns a permutation of its input, whatever indices the
random oracle produces. -/
theorem shuffleArray_perm (rand : Nat → Nat) (l : List α) :
    List.Perm (shuffleArray rand l) l :=
  fyAux_perm rand (l.length - 1) l

/-- Every entry of the pool carries the id of one of the listed images. -/
theorem mem_buildPoolAux_imageId :
    ∀ (images : List LotteryImage) (idx : Nat) (e : PoolEntry),
      e ∈ buildPoolAux images idx → e.imageId ∈ images.map LotteryImage.id := by
  intro images
  induction images with
  | nil => intro idx e he; simp [buildPoolAux] at he
  | cons img rest ih =>
    intro idx e he
    simp only [buildPoolAux, List.mem_append] at he
    rcases he with he | he
    · cases hsel : img.selection with
      | none => rw [hsel] at he; simp at he
      | some s =>
        rw [hsel] at he
        simp only [List.mem_map] at he
        obtain ⟨i, _, rfl⟩ := he
        simp [List.map_cons]
    · have := ih (idx + 1) e he
      simp [List.map_cons, this]

/-- If the image ids are pairwise distinct, the `(imageId, cellIndex)`
pairs of the pool are pairwise distinct. -/
theorem buildPoolAux_pairs_nodup :
    ∀ (images : List LotteryImage) (idx : Nat),
      (images.map LotteryImage.id).Nodup →
      ((buildPoolAux images idx).map (fun e => (e.imageId, e.cellIndex))).Nodup := by
  intro images
  induction images with
  | nil => intro idx _; simp [buildPoolAux]
  | cons img rest ih =>
    intro idx hids
    simp only [List.map_cons, List.nodup_cons] at hids
    obtain ⟨hnotmem, hrest⟩ := hids
    simp only [buildPoolAux, List.map_append]
    refine List.Nodup.append ?_ (ih (idx + 1) hrest) ?_
    · cases hsel : img.selection with
      | none => simp
      | some s =>
        simp only [List.map_map]
        refine List.Nodup.map ?_ ?_
        · intro a b hab
          simpa using congrArg Prod.snd hab
        · exact (List.nodup_range _).filter _
    · intro p hp hp'
      cases hsel : img.selection with
      | none => rw [hsel] at hp; simp at hp
      | some s =>
        rw [hsel] at hp
        simp only [List.map_map, List.mem_map, Function.comp] at hp
        obtain ⟨i, _, rfl⟩ := hp
        simp only [List.mem_map] at hp'
        obtain ⟨e, he, hpe⟩ := hp'
        have hid : e.imageId = img.id := congrArg Prod.fst hpe
        have hmem := mem_buildPoolAux_imageId rest (idx + 1) e he
        rw [hid] at hmem
        exact hnotmem hmem

/-- C1: when the draw animation completes, the global winner list is exactly
the first `min(winnerCount, |pool|)` elements of the Fisher-Yates shuffle of
the eligible pool; if the image ids are pairwise distinct the winners'
`(imageId, cellIndex)` pairs are pairwise distinct; every winner comes from
the pool; and the winners are partitioned back into the images' `winners`
sets by filtering on the image id. -/
theorem c1_final_winners (rand : Nat → Nat) (images : List LotteryImage) (wc : Nat)
    (hids : (images.map LotteryImage.id).Nodup) :
    (lotteryFinish rand images wc).1
      = (shuffleArray rand (buildPool images)).take (min wc (buildPool images).length)
    ∧ ((lotteryFinish rand images wc).1.map (fun e => (e.imageId, e.cellIndex))).Nodup
    ∧ (∀ w, w ∈ (lotteryFinish rand images wc).1 → w ∈ buildPool images)
    ∧ (lotteryFinish rand images wc).2 = images.map (fun img =>
        { img with winners :=
            (((lotteryFinish rand images wc).1.filter (fun w => w.imageId == img.id)).map
              PoolEntry.cellIndex) }) := by
  have hperm : List.Perm (shuffleArray rand (buildPool images)) (buildPool images) :=
    shuffleArray_perm rand (buildPool images)
  refine ⟨rfl, ?_, ?_, rfl⟩
  · have hpool : ((buildPool images).map (fun e => (e.imageId, e.cellIndex))).Nodup :=
      buildPoolAux_pairs_nodup images 0 hids
    have hshuf : ((shuffleArray rand (buildPool images)).map
        (fun e => (e.imageId, e.cellIndex))).Nodup :=
      ((hperm.map _).nodup_iff).mpr hpool
    have htake : (lotteryFinish rand images wc).1.map (fun e => (e.imageId, e.cellIndex))
        = ((shuffleArray rand (buildPool images)).map
            (fun e => (e.imageId, e.cellIndex))).take (min wc (buildPool images).length) := by
      simp [lotteryFinish, List.map_take]
    rw [htake]
    exact hshuf.sublist (List.take_sublist _ _)
  · intro w hw
    have hw' : w ∈ shuffleArray rand (buildPool images) :=
      List.mem_of_mem_take hw
    exact hperm.subset hw'

/-- Witness for C1 at the concrete two-image pool with `winnerCount = 2` and
the identity shuffle oracle. -/
theorem c1_final_winners_witness :
    (lotteryFinish exRand exImages 2).1
      = (shuffleArray exRand (buildPool exImages)).take (min 2 (buildPool exImages).length)
    ∧ ((lotteryFinish exRand exImages 2).1.map (fun e => (e.imageId, e.cellIndex))).Nodup
    ∧ (∀ w, w ∈ (lotteryFinish exRand exImages 2).1 → w ∈ buildPool exImages)
    ∧ (lotteryFinish exRand exImages 2).2 = exImages.map (fun img =>
        { img with winners :=
            (((lotteryFinish exRand exImages 2).1.filter (fun w => w.imageId == img.id)).map
              PoolEntry.cellIndex) }) :=
  c1_final_winners exRand exImages 2 (by decide)

/-- C2 fails as stated: with the spec's six-cell pool and `winnerCount = 10`
the claim demands a rejection, but `startLottery`'s guard only tests
`totalEligibleCount === 0`, so the draw is not rejected. -/
theorem c2_counterexample :
    startLotteryRejects exImages = false
    ∧ (totalEligibleCount exImages = 0 ∨ (10 : Int) > totalEligibleCount exImages) := by
  constructor
  · decide
  · right; decide

/-- C2 (amended): starting a draw is rejected as a no-op exactly when the
total eligible-cell count is zero; a winner count exceeding the pool is not
rejected — the winner list is simply capped at the pool size. -/
theorem c2_start_guard (images : List LotteryImage) (rand : Nat → Nat) (wc : Nat) :
    (startLotteryRejects images = true ↔ totalEligibleCount images = 0)
    ∧ (lotteryFinish rand images wc).1.length = min wc (buildPool images).length := by
  constructor
  · simp [startLotteryRejects]
  · have hlen : (shuffleArray rand (buildPool images)).length = (buildPool images).length :=
      (shuffleArray_perm rand (buildPool images)).length_eq
    simp only [lotteryFinish, List.length_take, hlen]
    omega

/-- Witness for the amended C2 at the concrete pool with `winnerCount = 10`:
the guard does not fire and exactly `min 10 6 = 6` winners are produced. -/
theorem c2_start_guard_witness :
    (startLotteryRejects exImages = true ↔ totalEligibleCount exImages = 0)
    ∧ (lotteryFinish exRand exImages 10).1.length = min 10 (buildPool exImages).length :=
  c2_start_guard exImages exRand 10

/-- C4 fails as stated: ending a `resizing` gesture with a normalized width
below the threshold commits the small rectangle instead of discarding it
(only `drawing` gestures are discarded). -/
theorem c4_counterexample :
    commitSelection .resizing ⟨0, 0, 5, 20⟩ = some ⟨0, 0, 5, 20⟩
    ∧ (normalizeSelection ⟨0, 0, 5, 20⟩).w < 10 := by
  constructor
  · rfl
  · show |(5 : ℚ)| < 10
    rw [abs_of_nonneg (by norm_num)]
    norm_num

/-- C4 (amended): for every drag vector and every selection-editing mode
(`drawing`, `moving`, `resizing`), the rectangle committed at pointer-up is
the normalized one, with `w ≥ 0` and `h ≥ 0`; it is discarded (set to null)
exactly when the mode is `drawing` and the normalized width or height is
below the minimum-size threshold 10. -/
theorem c4_commit_normalized (mode : InteractionMode) (s : Selection)
    (hmode : mode = .drawing ∨ mode = .moving ∨ mode = .resizing) :
    commitSelection mode s
      = (if mode = .drawing ∧ ((normalizeSelection s).w < 10 ∨ (normalizeSelection s).h < 10)
          then Option.none else some (normalizeSelection s))
    ∧ 0 ≤ (normalizeSelection s).w ∧ 0 ≤ (normalizeSelection s).h := by
  refine ⟨?_, abs_nonneg _, abs_nonneg _⟩
  rcases hmode with rfl | rfl | rfl
  · simp only [commitSelection]
    split
    · next h => simp [if_pos h]
    · next h => simp [if_neg h]
  · simp [commitSelection]
  · simp [commitSelection]

/-- Witness for the amended C4: a `drawing` gesture dragged up-left by
`(-30, -40)` commits the flipped rectangle with positive extents. -/
theorem c4_commit_normalized_witness :
    commitSelection .drawing ⟨50, 50, -30, -40⟩
      = (if ((InteractionMode.drawing = .drawing
              ∧ ((normalizeSelection ⟨50, 50, -30, -40⟩).w < 10
                  ∨ (normalizeSelection ⟨50, 50, -30, -40⟩).h < 10)))
          then Option.none else some (normalizeSelection ⟨50, 50, -30, -40⟩))
    ∧ 0 ≤ (normalizeSelection ⟨50, 50, -30, -40⟩).w
    ∧ 0 ≤ (normalizeSelection ⟨50, 50, -30, -40⟩).h :=
  c4_commit_normalized .drawing ⟨50, 50, -30, -40⟩ (Or.inl rfl)

/-- C5 fails as stated: moving the selection of an image whose
`excludedCells` is empty but whose `winners` is non-empty leaves the stale
winners in place, because the clearing in the `moving`/`resizing` branches
is guarded by `excludedCells.length > 0`. -/
theorem c5_counterexample :
    (moveFrame exImgWinners ⟨0, 0, 50, 50⟩ 5 5).winners = [2]
    ∧ (resizeFrame exImgWinners ⟨0, 0, 50, 50⟩ .br 5 5).winners = [2] := by
  constructor <;> rfl

/-- C5 (amended): setting the grid row/column count and starting a new
selection always leave `excludedCells` and `winners` empty; a move or
resize frame clears both exactly when `excludedCells` was non-empty, and
otherwise leaves both unchanged (so stale winners survive a move/resize
when no cell was excluded). -/
theorem c5_geometry_invalidation (img : LotteryImage) (val : Nat) (lx ly : ℚ)
    (s : Selection) (handle : ResizeHandle) (dx dy : ℚ) :
    (setGridRows val img).excludedCells = [] ∧ (setGridRows val img).winners = []
    ∧ (setGridCols val img).excludedCells = [] ∧ (setGridCols val img).winners = []
    ∧ (drawStart img lx ly).excludedCells = [] ∧ (drawStart img lx ly).winners = []
    ∧ (img.excludedCells ≠ [] →
        (moveFrame img s dx dy).excludedCells = [] ∧ (moveFrame img s dx dy).winners = []
        ∧ (resizeFrame img s handle dx dy).excludedCells = []
        ∧ (resizeFrame img s handle dx dy).winners = [])
    ∧ (img.excludedCells = [] →
        (moveFrame img s dx dy).excludedCells = img.excludedCells
        ∧ (moveFrame img s dx dy).winners = img.winners
        ∧ (resizeFrame img s handle dx dy).excludedCells = img.excludedCells
        ∧ (resizeFrame img s handle dx dy).winners = img.winners) := by
  refine ⟨rfl, rfl, rfl, rfl, rfl, rfl, ?_, ?_⟩
  · intro hne
    have hlen : img.excludedCells.length > 0 := List.length_pos.mpr hne
    simp [moveFrame, resizeFrame, hlen]
  · intro heq
    have hlen : ¬ img.excludedCells.length > 0 := by simp [heq]
    simp [moveFrame, resizeFrame, hlen]

/-- Witness for the amended C5 at the concrete stale-winners image: moving
it leaves the winners untouched, while the grid setters clear them. -/
theorem c5_geometry_invalidation_witness :
    (setGridRows 3 exImgWinners).excludedCells = []
    ∧ (setGridRows 3 exImgWinners).winners = []
    ∧ (setGridCols 3 exImgWinners).excludedCells = []
    ∧ (setGridCols 3 exImgWinners).winners = []
    ∧ (drawStart exImgWinners 1 1).excludedCells = []
    ∧ (drawStart exImgWinners 1 1).winners = []
    ∧ (exImgWinners.excludedCells ≠ [] →
        (moveFrame exImgWinners ⟨0, 0, 50, 50⟩ 5 5).excludedCells = []
        ∧ (moveFrame exImgWinners ⟨0, 0, 50, 50⟩ 5 5).winners = []
        ∧ (resizeFrame exImgWinners ⟨0, 0, 50, 50⟩ .br 5 5).excludedCells = []
        ∧ (resizeFrame exImgWinners ⟨0, 0, 50, 50⟩ .br 5 5).winners = [])
    ∧ (exImgWinners.excludedCells = [] →
        (moveFrame exImgWinners ⟨0, 0, 50, 50⟩ 5 5).excludedCells = exImgWinners.excludedCells
        ∧ (moveFrame exImgWinners ⟨0, 0, 50, 50⟩ 5 5).winners = exImgWinners.winners
        ∧ (resizeFrame exImgWinners ⟨0, 0, 50, 50⟩ .br 5 5).excludedCells
            = exImgWinners.excludedCells
        ∧ (resizeFrame exImgWinners ⟨0, 0, 50, 50⟩ .br 5 5).winners = exImgWinners.winners) :=
  c5_geometry_invalidation exImgWinners 3 1 1 ⟨0, 0, 50, 50⟩ .br 5 5

/-- C9 fails as stated: moving a selection wider than its image puts the
clamped x at `0`, which is outside the claimed interval
`[0, imageWidth - w]` (that interval is empty since `w > imageWidth`). -/
theorem c9_counterexample :
    (moveFrame exImgWinners exWideSel 0 0).selection
      = some ⟨0, 0, exWideSel.w, exWideSel.h⟩
    ∧ ¬ ((0 : ℚ) ≤ exImgWinners.naturalWidth - exWideSel.w) := by
  constructor
  · show some _ = _
    have h1 : max (0 : ℚ) (min (0 + 0) (100 - 150)) = 0 := by norm_num
    have h2 : max (0 : ℚ) (min (0 + 0) (100 - 50)) = 0 := by norm_num
    simp [moveFrame, exImgWinners, exWideSel, h1, h2]
  · show ¬ ((0 : ℚ) ≤ 100 - 150)
    norm_num

/-- C9 (amended): a moving frame always sets the top-left to
`(max 0 (min (x+dx) (W-w)), max 0 (min (y+dy) (H-h)))` and keeps the
extent; whenever the selection fits inside the image (`w ≤ W`, `h ≤ H`)
this point lies in `[0, W-w] × [0, H-h]`, so the rectangle never leaves the
image's pixel bounds. -/
theorem c9_move_clamped (img : LotteryImage) (s : Selection) (dx dy : ℚ)
    (hw : s.w ≤ img.naturalWidth) (hh : s.h ≤ img.naturalHeight) :
    (moveFrame img s dx dy).selection
      = some { s with x := max 0 (min (s.x + dx) (img.naturalWidth - s.w))
                      y := max 0 (min (s.y + dy) (img.naturalHeight - s.h)) }
    ∧ 0 ≤ max 0 (min (s.x + dx) (img.naturalWidth - s.w))
    ∧ max 0 (min (s.x + dx) (img.naturalWidth - s.w)) ≤ img.naturalWidth - s.w
    ∧ 0 ≤ max 0 (min (s.y + dy) (img.naturalHeight - s.h))
    ∧ max 0 (min (s.y + dy) (img.naturalHeight - s.h)) ≤ img.naturalHeight - s.h := by
  refine ⟨?_, le_max_left _ _, ?_, le_max_left _ _, ?_⟩
  · simp only [moveFrame]
  · exact max_le (by linarith) (min_le_right _ _)
  · exact max_le (by linarith) (min_le_right _ _)

/-- Witness for the amended C9: a 50×50 selection in a 100×100 image moved
by `(70, -80)` stays inside the image. -/
theorem c9_move_clamped_witness :
    (moveFrame exImgWinners ⟨0, 0, 50, 50⟩ 70 (-80)).selection
      = some { (⟨0, 0, 50, 50⟩ : Selection) with
                x := max 0 (min ((0 : ℚ) + 70) (exImgWinners.naturalWidth - 50))
                y := max 0 (min ((0 : ℚ) + (-80)) (exImgWinners.naturalHeight - 50)) }
    ∧ 0 ≤ max 0 (min ((0 : ℚ) + 70) (exImgWinners.naturalWidth - 50))
    ∧ max 0 (min ((0 : ℚ) + 70) (exImgWinners.naturalWidth - 50))
        ≤ exImgWinners.naturalWidth - 50
    ∧ 0 ≤ max 0 (min ((0 : ℚ) + (-80)) (exImgWinners.naturalHeight - 50))
    ∧ max 0 (min ((0 : ℚ) + (-80)) (exImgWinners.naturalHeight - 50))
        ≤ exImgWinners.naturalHeight - 50 :=
  c9_move_clamped exImgWinners ⟨0, 0, 50, 50⟩ 70 (-80)
    (by norm_num [exImgWinners]) (by norm_num [exImgWinners])

/-- C7 fails as stated: clicking the cell with index 2 — which is currently
a winner — toggles it into `excludedCells` but leaves the `winners` set
untouched (`handleCellClick` never writes `winners`). -/
theorem c7_counterexample :
    (handleCellClick exImgToggle 50 50).excludedCells = [2]
    ∧ (handleCellClick exImgToggle 50 50).winners = [2] := by
  have h : handleCellClick exImgToggle 50 50 = { exImgToggle with excludedCells := [2] } := by
    simp only [handleCellClick, exImgToggle]
    norm_num
    decide
  rw [h]
  exact ⟨rfl, rfl⟩

/-- C7 (amended): a cell-toggle click only rewrites `excludedCells`; the
`winners` set (and every other field) is left unchanged, even when the
toggled index is currently a winner. -/
theorem c7_toggle_preserves_winners (img : LotteryImage) (lx ly : ℚ) :
    (handleCellClick img lx ly).winners = img.winners
    ∧ (handleCellClick img lx ly).selection = img.selection
    ∧ (handleCellClick img lx ly).gridRows = img.gridRows
    ∧ (handleCellClick img lx ly).gridCols = img.gridCols := by
  cases hsel : img.selection with
  | none => simp [handleCellClick, hsel]
  | some sel =>
    simp only [handleCellClick, hsel]
    split <;> simp [hsel]

/-- C10: pointer-down starting a drawing gesture immediately replaces the
image's selection by a zero-size rectangle at the pointer and clears
`excludedCells` and `winners`; after stretching to any point closer than
the 10-unit threshold in either axis, pointer-up discards the selection
(sets it to null) but the old exclusions and winners stay destroyed — they
are not restored. -/
theorem c10_abandoned_draw_destroys_state (img : LotteryImage) (lx ly lx2 ly2 : ℚ)
    (hsmall : |lx2 - lx| < 10 ∨ |ly2 - ly| < 10) :
    (drawStart img lx ly).selection = some ⟨lx, ly, 0, 0⟩
    ∧ (drawStart img lx ly).excludedCells = []
    ∧ (drawStart img lx ly).winners = []
    ∧ (pointerUpImage .drawing (drawingMove (drawStart img lx ly) lx2 ly2)).selection
        = Option.none
    ∧ (pointerUpImage .drawing (drawingMove (drawStart img lx ly) lx2 ly2)).excludedCells
        = []
    ∧ (pointerUpImage .drawing (drawingMove (drawStart img lx ly) lx2 ly2)).winners
        = [] := by
  have hmove : drawingMove (drawStart img lx ly) lx2 ly2
      = { img with selection := some ⟨lx, ly, lx2 - lx, ly2 - ly⟩
                   excludedCells := [], winners := [] } := by
    simp [drawingMove, drawStart]
  have hcommit : commitSelection .drawing ⟨lx, ly, lx2 - lx, ly2 - ly⟩ = Option.none := by
    have hws : (normalizeSelection ⟨lx, ly, lx2 - lx, ly2 - ly⟩).w < 10
        ∨ (normalizeSelection ⟨lx, ly, lx2 - lx, ly2 - ly⟩).h < 10 := by
      simpa [normalizeSelection] using hsmall
    rcases hws with hw | hh
    · simp [commitSelection, hw]
    · simp [commitSelection, hh]
  refine ⟨rfl, rfl, rfl, ?_, ?_, ?_⟩ <;>
    simp [pointerUpImage, hmove, hcommit]

/-- Witness for C10: starting a draw on the image with exclusions `[1]` and
dragging only 5 units before release leaves no selection, no exclusions and
no winners. -/
theorem c10_abandoned_draw_destroys_state_witness :
    (drawStart exImg1 0 0).selection = some ⟨0, 0, 0, 0⟩
    ∧ (drawStart exImg1 0 0).excludedCells = []
    ∧ (drawStart exImg1 0 0).winners = []
    ∧ (pointerUpImage .drawing (drawingMove (drawStart exImg1 0 0) 5 50)).selection
        = Option.none
    ∧ (pointerUpImage .drawing (drawingMove (drawStart exImg1 0 0) 5 50)).excludedCells
        = []
    ∧ (pointerUpImage .drawing (drawingMove (drawStart exImg1 0 0) 5 50)).winners
        = [] :=
  c10_abandoned_draw_destroys_state exImg1 0 0 5 50
    (Or.inl (by rw [abs_of_nonneg (by norm_num)]; norm_num))

/-- C8: `restore(index)` is non-destructive — for every valid index it sets
the live images to that entry's snapshot and appends one new entry, leaving
the whole previous log intact as a prefix (no intervening entries lost). -/
theorem c8_restore_nondestructive (s : AppState) (index : Nat) (entry : HistoryEntry)
    (h : s.history[index]? = some entry) :
    (restoreHistory index s).images = entry.images
    ∧ (restoreHistory index s).history.length = s.history.length + 1
    ∧ (restoreHistory index s).history.take s.history.length = s.history := by
  have h1 : restoreHistory index s =
      { images := entry.images
        history := s.history
          ++ [{ images := entry.images, action := "恢复: " ++ entry.action }]
        future := [] } := by
    simp only [restoreHistory, h]
  rw [h1]
  refine ⟨rfl, by simp, ?_⟩
  exact List.take_left _ _

/-- Witness for C8: after `record "a"` (empty image list) and `record "b"`
(one image), restoring index 0 yields history length 3 and the live model
equal to entry "a"'s snapshot. -/
theorem c8_restore_nondestructive_witness :
    (restoreHistory 0 (recordAction "b" [exImg1] (recordAction "a" [] emptyState))).images
      = (⟨[], "a"⟩ : HistoryEntry).images
    ∧ (restoreHistory 0 (recordAction "b" [exImg1] (recordAction "a" [] emptyState))).history.length
      = (recordAction "b" [exImg1] (recordAction "a" [] emptyState)).history.length + 1
    ∧ (restoreHistory 0 (recordAction "b" [exImg1] (recordAction "a" [] emptyState))).history.take
        (recordAction "b" [exImg1] (recordAction "a" [] emptyState)).history.length
      = (recordAction "b" [exImg1] (recordAction "a" [] emptyState)).history :=
  c8_restore_nondestructive (recordAction "b" [exImg1] (recordAction "a" [] emptyState)) 0
    ⟨[], "a"⟩ (by rfl)

end LotteryApp
